import Mathlib

/-!
Verification development for the SnapCapit caption-contest core.

The repository stores one contest (Reddit post) per post id in a Redis
keyspace:

  post:{postId}                          -- hash holding the Post record
  post:{postId}:captions                 -- sorted set: caption id, score
  post:{postId}:captions:{cid}           -- hash holding one caption payload
  post:{postId}:captions:{cid}:upvotes   -- sorted set of voter usernames

All keys are scoped to a single post id and the services never mix two
posts, so the embedding models the keyspace of one contest directly.

Redis sorted sets are modelled as lists of member/score pairs kept in the
Redis iteration order: ascending score, ties broken by ascending
lexicographic member comparison (the documented Redis tie-break).  An
absent key and an empty sorted set are both represented by the empty
list, matching Redis, where removing the last element of a sorted set
deletes the key and range queries on a missing key return the empty list.

The services are in src/server/core/captions.services.ts and
src/server/core/posts.services.ts; the settlement job and the
post-delete trigger are in src/server/index.ts; the client-side caption
form check is in src/client/utils/icons.tsx.
-/

deriving instance DecidableEq for Except

namespace SnapCapit

/-! ## Redis sorted sets (zsets) over string members and Nat scores -/

abbrev ZSet := List (String × Nat)

/-- Lexicographic comparison of character lists by code point; on the ASCII
identifiers used as Redis members this is the bytewise member comparison
Redis uses to break score ties. -/
def charListLt : List Char → List Char → Bool
  | [], [] => false
  | [], _ :: _ => true
  | _ :: _, [] => false
  | a :: as, b :: bs =>
    if a.val.toNat < b.val.toNat then true
    else if b.val.toNat < a.val.toNat then false
    else charListLt as bs

/-- Lexicographic string comparison. -/
def strLt (a b : String) : Bool := charListLt a.data b.data

/-- Redis sorted-set iteration order: ascending score, ties broken by
ascending lexicographic member comparison. -/
def zlt (a b : String × Nat) : Prop :=
  a.2 < b.2 ∨ (a.2 = b.2 ∧ strLt a.1 b.1 = true)

instance (a b : String × Nat) : Decidable (zlt a b) := by
  unfold zlt; exact inferInstance

/-- Insert a member/score pair at its sorted position. -/
def zinsert (m : String) (sc : Nat) : ZSet → ZSet
  | [] => [(m, sc)]
  | x :: xs =>
    if sc < x.2 ∨ (sc = x.2 ∧ strLt m x.1 = true) then (m, sc) :: x :: xs
    else x :: zinsert m sc xs

/-- Redis ZREM of a single member. -/
def zrem (l : ZSet) (m : String) : ZSet :=
  l.filter (fun p => p.1 != m)

/-- Redis ZADD: sets the score of the member, inserting or repositioning it. -/
def zadd (l : ZSet) (m : String) (sc : Nat) : ZSet :=
  zinsert m sc (zrem l m)

/-- Redis ZCARD. -/
def zcard (l : ZSet) : Nat := l.length

/-- The score currently stored for a member, if present. -/
def zscore (l : ZSet) (m : String) : Option Nat :=
  (l.find? (fun p => p.1 == m)).map Prod.snd

/-- Redis ZRANGE key 0 -1: every element in iteration order. -/
def zrangeAll (l : ZSet) : ZSet := l

/-! ## Per-key association lists for the hash-valued keys -/

/-- Read the value stored under a key. -/
def lookupA {α : Type} (l : List (String × α)) (k : String) : Option α :=
  (l.find? (fun p => p.1 == k)).map Prod.snd

/-- Store a value under a key (Redis HSET writing every field of the hash). -/
def setA {α : Type} (l : List (String × α)) (k : String) (v : α) : List (String × α) :=
  (k, v) :: l.filter (fun p => p.1 != k)

/-- Redis DEL of a key. -/
def delA {α : Type} (l : List (String × α)) (k : String) : List (String × α) :=
  l.filter (fun p => p.1 != k)

/-! ## Data model: Caption, its stored hash form, Post -/

/-- The Caption payload from src/shared/types/caption.type.ts.  Optional
TypeScript fields become Option; createdAt is a Date.now timestamp. -/
structure Caption where
  id : Option String
  username : String
  topExtendedCaption : Option String
  bottomExtendedCaption : Option String
  topCaption : Option String
  bottomCaption : Option String
  topExtensionWhite : Option Bool
  bottomExtensionWhite : Option Bool
  createdAt : Nat
deriving DecidableEq, Repr

/-- The stringly Redis hash written for a caption: the nine fields of
toRedisDataType in captions.services.ts, all strings. -/
structure CaptionHash where
  id : String
  username : String
  topExtendedCaption : String
  bottomExtendedCaption : String
  topCaption : String
  bottomCaption : String
  topExtensionWhite : String
  bottomExtensionWhite : String
  createdAt : String
deriving DecidableEq, Repr

/-- toRedisDataType: JavaScript falsy-to-empty-string defaults for the text
fields, the ternary true/false encoding for the flags, toString for the
timestamp. -/
def toRedisDataType (caption : Caption) : CaptionHash :=
  { id := caption.id.getD ""
    username := caption.username
    topExtendedCaption := caption.topExtendedCaption.getD ""
    bottomExtendedCaption := caption.bottomExtendedCaption.getD ""
    topCaption := caption.topCaption.getD ""
    bottomCaption := caption.bottomCaption.getD ""
    topExtensionWhite := if caption.topExtensionWhite.getD false then "true" else "false"
    bottomExtensionWhite := if caption.bottomExtensionWhite.getD false then "true" else "false"
    createdAt := Nat.repr caption.createdAt }

/-- One decimal digit, as parseInt radix 10 reads it. -/
def decimalDigit (c : Char) : Option Nat :=
  if c.val.toNat < 48 then none
  else if 57 < c.val.toNat then none
  else some (c.val.toNat - 48)

def decimalToNatAux : List Char → Nat → Option Nat
  | [], acc => some acc
  | c :: cs, acc =>
    match decimalDigit c with
    | none => none
    | some d => decimalToNatAux cs (acc * 10 + d)

/-- parseInt with radix 10 on the strings this code actually stores, which
are always the canonical decimal rendering of a Date.now timestamp.  The
NaN result of parseInt on a digitless string is not representable in Nat
and is not modelled; no code path stores such a string. -/
def decimalToNat (s : String) : Option Nat :=
  match s.data with
  | [] => none
  | l => decimalToNatAux l 0

/-- The empty-string-to-undefined direction used by fromRedisDataType. -/
def strOrNone (x : String) : Option String :=
  if x = "" then none else some x

/-- fromRedisDataType. -/
def fromRedisDataType (redisData : CaptionHash) : Caption :=
  { id := strOrNone redisData.id
    username := redisData.username
    topExtendedCaption := strOrNone redisData.topExtendedCaption
    bottomExtendedCaption := strOrNone redisData.bottomExtendedCaption
    topCaption := strOrNone redisData.topCaption
    bottomCaption := strOrNone redisData.bottomCaption
    topExtensionWhite := if redisData.topExtensionWhite = "true" then some true else none
    bottomExtensionWhite := if redisData.bottomExtensionWhite = "true" then some true else none
    createdAt := (decimalToNat redisData.createdAt).getD 0 }

/-- The caption plus the per-user upvote view: CaptionWithUpvotes extends
Caption with upvotes and userUpvoted, as in caption.type.ts. -/
structure CaptionWithUpvotes extends Caption where
  upvotes : Nat
  userUpvoted : Bool
deriving DecidableEq, Repr

/-- The Post record from src/shared/types/post.type.ts. -/
structure Post where
  id : String
  imageUrl : String
  jobId : Option String
deriving DecidableEq, Repr

/-- The keyspace of one contest: the post hash, the captions ranking
sorted set, the per-caption hashes and the per-caption upvote sorted
sets. -/
structure ContestState where
  post : Option Post
  captions : ZSet
  captionRecords : List (String × CaptionHash)
  upvotes : List (String × ZSet)
deriving DecidableEq, Repr

/-- The keyspace with every contest-scoped key absent. -/
def ContestState.empty : ContestState :=
  { post := none, captions := [], captionRecords := [], upvotes := [] }

/-- The upvote sorted set of one caption (empty list for a missing key). -/
def upvotesOf (s : ContestState) (captionId : String) : ZSet :=
  (lookupA s.upvotes captionId).getD []

/-- The failure taxonomy of the spec.  The services signal failures by
throwing Error messages; validationError appears in the taxonomy of the
spec but, as proved below, is never produced by the server code. -/
inductive Err where
  | contestNotFound
  | entryNotFound
  | validationError
deriving DecidableEq, Repr

/-! ## The operations of CaptionsServices and PostsServices -/

/-- CaptionsServices.createCaption.  The fresh identifier produced by
randomUUID is passed in as the newId parameter.  The function checks that
the post key exists, stores the caption hash under the fresh id, registers
the id in the captions sorted set at score 0 and seeds the upvote set of
the caption with its author at score 1. -/
def createCaption (s : ContestState) (newId : String) (caption : Caption) :
    Except Err Caption × ContestState :=
  match s.post with
  | none => (.error .contestNotFound, s)
  | some _ =>
    let captionWithId : Caption := { caption with id := some newId }
    (.ok captionWithId,
      { s with
        captionRecords := setA s.captionRecords newId (toRedisDataType captionWithId)
        captions := zadd s.captions newId 0
        upvotes := setA s.upvotes newId (zadd (upvotesOf s newId) caption.username 1) })

/-- CaptionsServices.upvoteCaption.  Checks that the caption hash exists,
toggles the membership of the user in the upvote sorted set of the caption,
then rewrites the score of the caption in the captions sorted set to the
new cardinality of the upvote set.  Returns the new membership state. -/
def upvoteCaption (s : ContestState) (captionId username : String) :
    Except Err Bool × ContestState :=
  match lookupA s.captionRecords captionId with
  | none => (.error .entryNotFound, s)
  | some _ =>
    let upvotesList := zrangeAll (upvotesOf s captionId)
    let userHasUpvoted := upvotesList.any (fun it => it.1 == username)
    let userUpvoted := !userHasUpvoted
    let up2 :=
      if userHasUpvoted then zrem (upvotesOf s captionId) username
      else zadd (upvotesOf s captionId) username 1
    let upvoteCount := zcard up2
    (.ok userUpvoted,
      { s with
        upvotes := setA s.upvotes captionId up2
        captions := zadd s.captions captionId upvoteCount })

/-- One step of an arbitrary toggle sequence: apply upvoteCaption and keep
the resulting state (the state is unchanged when the call fails). -/
def toggleStep (s : ContestState) (op : String × String) : ContestState :=
  (upvoteCaption s op.1 op.2).2

/-- The per-item body of the getCaptionsWithUpvotes loop: fetch the caption
hash, skip the item when the hash is missing, otherwise decode it and attach
the upvote count and the membership of the requesting user. -/
def readCaptionItem (s : ContestState) (username : String) (it : String × Nat) :
    Option CaptionWithUpvotes :=
  match lookupA s.captionRecords it.1 with
  | none => none
  | some data =>
    let caption := fromRedisDataType data
    let upvotesList := zrangeAll (upvotesOf s it.1)
    some { caption with
           upvotes := upvotesList.length
           userUpvoted := upvotesList.any (fun p => p.1 == username) }

/-- CaptionsServices.getCaptionsWithUpvotes: scan the whole captions sorted
set and decode each entry, skipping dangling index members. -/
def getCaptionsWithUpvotes (s : ContestState) (username : String) :
    List CaptionWithUpvotes :=
  (zrangeAll s.captions).filterMap (readCaptionItem s username)

/-- The index slice inspected by getTopCaptions: the last three elements of
the captions sorted set (the three highest in iteration order), reversed so
the highest score comes first.  Math.max(0, total - 3) is truncated Nat
subtraction. -/
def getTopCaptionItems (s : ContestState) : ZSet :=
  ((zrangeAll s.captions).drop (zcard s.captions - 3)).reverse

/-- The per-item body of the getTopCaptions loop: fetch and decode the
caption hash, skipping the item when the hash is missing. -/
def readTopCaptionItem (s : ContestState) (it : String × Nat) : Option Caption :=
  (lookupA s.captionRecords it.1).map fromRedisDataType

/-- CaptionsServices.getTopCaptions. -/
def getTopCaptions (s : ContestState) : List Caption :=
  (getTopCaptionItems s).filterMap (readTopCaptionItem s)

/-- The body of the purge loop: delete the hash and the upvote set of one
listed caption. -/
def purgeItemStep (acc : ContestState) (it : String × Nat) : ContestState :=
  { acc with
    captionRecords := delA acc.captionRecords it.1
    upvotes := delA acc.upvotes it.1 }

/-- CaptionsServices.purgeCaptionsAndUpvotes: list the captions sorted set,
delete the hash and the upvote set of every listed caption, then delete the
captions sorted set itself. -/
def purgeCaptionsAndUpvotes (s : ContestState) : ContestState :=
  let items := zrangeAll s.captions
  let s1 := items.foldl purgeItemStep s
  { s1 with captions := [] }

/-- PostsServices.getPost (an empty hash reads back as null). -/
def getPost (s : ContestState) : Option Post := s.post

/-- PostsServices.purgePost: read the post first to recover the jobId,
return status false without touching anything when it is absent, otherwise
delete the post key. -/
def purgePost (s : ContestState) : (Bool × Option String) × ContestState :=
  match getPost s with
  | none => ((false, none), s)
  | some p => ((true, p.jobId), { s with post := none })

/-- The terminal settlement step of the post-best-captions job in
src/server/index.ts (also run by the post-delete trigger): purge the post
record, then purge all captions and upvotes. -/
def settlementPurge (s : ContestState) : ContestState :=
  purgeCaptionsAndUpvotes (purgePost s).2

/-- The client-side guard in handleCreateCaption (src/client/utils/icons.tsx):
the create request is only sent when at least one caption text field is a
non-empty string. -/
def clientHasContent (top bottom topExtended bottomExtended : String) : Bool :=
  top != "" || bottom != "" || topExtended != "" || bottomExtended != ""

/-! ## Lemmas about the sorted-set and association-list primitives -/

theorem charListLt_asymm : ∀ {a b : List Char},
    charListLt a b = true → charListLt b a = false
  | [], [], h => by simp [charListLt] at h
  | [], _ :: _, _ => by simp [charListLt]
  | _ :: _, [], h => by simp [charListLt] at h
  | a :: as, b :: bs, h => by
    simp only [charListLt] at h ⊢
    rcases Nat.lt_trichotomy a.val.toNat b.val.toNat with hlt | heq | hgt
    · simp [hlt, Nat.lt_asymm hlt]
    · simp only [heq, lt_irrefl, if_false] at h ⊢
      exact charListLt_asymm h
    · simp [hgt, Nat.lt_asymm hgt] at h

theorem strLt_asymm {a b : String} (h : strLt a b = true) : strLt b a = false :=
  charListLt_asymm h

theorem mem_zrem_ne {l : ZSet} {m : String} : ∀ p ∈ zrem l m, p.1 ≠ m := by
  intro p hp
  have := List.of_mem_filter hp
  simpa using this

theorem zrem_eq_self {l : ZSet} {m : String} (h : ∀ p ∈ l, p.1 ≠ m) :
    zrem l m = l := by
  apply List.filter_eq_self.mpr
  intro p hp
  simpa using h p hp

theorem find_zinsert_self {l : ZSet} {m : String} {sc : Nat}
    (h : ∀ p ∈ l, p.1 ≠ m) :
    (zinsert m sc l).find? (fun p => p.1 == m) = some (m, sc) := by
  induction l with
  | nil => simp [zinsert, List.find?]
  | cons x xs ih =>
    by_cases hc : sc < x.2 ∨ (sc = x.2 ∧ strLt m x.1 = true)
    · simp [zinsert, hc, List.find?]
    · have hx : x.1 ≠ m := h x (by simp)
      have hxs : ∀ p ∈ xs, p.1 ≠ m := fun p hp => h p (by simp [hp])
      simp only [zinsert, hc, if_false]
      rw [List.find?]
      have : (x.1 == m) = false := by simpa using hx
      simp [this, ih hxs]

theorem zscore_zadd_self (l : ZSet) (m : String) (sc : Nat) :
    zscore (zadd l m sc) m = some sc := by
  unfold zscore zadd
  rw [find_zinsert_self (fun p hp => mem_zrem_ne p hp)]
  rfl

theorem mem_zinsert_self (l : ZSet) (m : String) (sc : Nat) :
    (m, sc) ∈ zinsert m sc l := by
  induction l with
  | nil => simp [zinsert]
  | cons x xs ih =>
    by_cases hc : sc < x.2 ∨ (sc = x.2 ∧ strLt m x.1 = true)
    · simp [zinsert, hc]
    · simp [zinsert, hc, ih]

theorem mem_zadd_self (l : ZSet) (m : String) (sc : Nat) :
    (m, sc) ∈ zadd l m sc :=
  mem_zinsert_self _ _ _

theorem zrem_zinsert_self (l : ZSet) (m : String) (sc : Nat) :
    zrem (zinsert m sc l) m = zrem l m := by
  induction l with
  | nil => simp [zinsert, zrem]
  | cons x xs ih =>
    by_cases hc : sc < x.2 ∨ (sc = x.2 ∧ strLt m x.1 = true)
    · simp [zinsert, hc, zrem, List.filter]
    · simp only [zinsert, hc, if_false]
      unfold zrem at ih ⊢
      simp only [List.filter]
      cases hxm : (x.1 != m) <;> simp [ih]

theorem lookupA_setA_self {α : Type} (l : List (String × α)) (k : String) (v : α) :
    lookupA (setA l k v) k = some v := by
  simp [lookupA, setA, List.find?]

theorem charListLt_irrefl : ∀ (a : List Char), charListLt a a = false
  | [] => by simp [charListLt]
  | c :: cs => by
    simp only [charListLt, lt_irrefl, if_false]
    exact charListLt_irrefl cs

theorem strLt_irrefl (a : String) : strLt a a = false :=
  charListLt_irrefl a.data

theorem ne_of_strLt {a b : String} (h : strLt a b = true) : b ≠ a := by
  intro he
  subst he
  rw [strLt_irrefl] at h
  exact Bool.false_ne_true h

/-- Removing a member of a canonically sorted all-score-one sorted set and
re-adding it with score one restores the original list. -/
theorem zinsert_zrem_restore : ∀ {l : ZSet} {u : String},
    l.Pairwise zlt → (∀ p ∈ l, p.2 = 1) → (u, 1) ∈ l →
    zinsert u 1 (zrem l u) = l := by
  intro l
  induction l with
  | nil => intro u _ _ hm; simp at hm
  | cons x xs ih =>
    intro u hs h1 hm
    have hx : ∀ p ∈ xs, zlt x p := fun p hp => List.rel_of_pairwise_cons hs hp
    have hxs := List.Pairwise.of_cons hs
    rcases List.mem_cons.mp hm with hm | hm
    · subst hm
      have hne : ∀ p ∈ xs, p.1 ≠ u := by
        intro p hp
        have hz := hx p hp
        have hp1 : p.2 = 1 := h1 p (by simp [hp])
        rcases hz with hlt | ⟨_, hstr⟩
        · rw [hp1] at hlt; exact absurd hlt (lt_irrefl 1)
        · exact ne_of_strLt hstr
      have hrem : zrem ((u, 1) :: xs) u = xs := by
        unfold zrem
        rw [List.filter_cons]
        simp only [bne_self_eq_false, Bool.false_eq_true, if_false]
        exact zrem_eq_self hne
      rw [hrem]
      cases xs with
      | nil => rfl
      | cons y ys =>
        have hy2 : y.2 = 1 := h1 y (by simp)
        have hstr : strLt u y.1 = true := by
          have hz := hx y (List.mem_cons_self y ys)
          rcases hz with hlt | ⟨_, hstr⟩
          · rw [hy2] at hlt; exact absurd hlt (lt_irrefl 1)
          · exact hstr
        show zinsert u 1 (y :: ys) = (u, 1) :: y :: ys
        unfold zinsert
        rw [if_pos (Or.inr ⟨hy2.symm, hstr⟩)]
    · have hx2 : x.2 = 1 := h1 x (by simp)
      have hzx := hx (u, 1) hm
      have hstr : strLt x.1 u = true := by
        rcases hzx with hlt | ⟨_, hstr⟩
        · rw [hx2] at hlt; exact absurd hlt (lt_irrefl 1)
        · exact hstr
      have hxu : x.1 ≠ u := fun he => ne_of_strLt hstr he.symm
      have hrem : zrem (x :: xs) u = x :: zrem xs u := by
        unfold zrem
        rw [List.filter_cons]
        simp [bne_iff_ne, hxu]
      rw [hrem]
      show zinsert u 1 (x :: zrem xs u) = x :: xs
      unfold zinsert
      rw [if_neg]
      · rw [ih hxs (fun p hp => h1 p (by simp [hp])) hm]
      · rintro (hlt | ⟨_, hstr2⟩)
        · rw [hx2] at hlt; exact absurd hlt (lt_irrefl 1)
        · rw [strLt_asymm hstr] at hstr2; exact Bool.false_ne_true hstr2

/-! ## Characterizations of the operations -/

theorem createCaption_some {s : ContestState} {p : Post} (hp : s.post = some p)
    (newId : String) (caption : Caption) :
    createCaption s newId caption =
      (.ok { caption with id := some newId },
       { s with
         captionRecords :=
           setA s.captionRecords newId (toRedisDataType { caption with id := some newId })
         captions := zadd s.captions newId 0
         upvotes :=
           setA s.upvotes newId (zadd (upvotesOf s newId) caption.username 1) }) := by
  simp [createCaption, hp]

theorem upvoteCaption_mem {s : ContestState} {cid u : String} {c : CaptionHash}
    (hrec : lookupA s.captionRecords cid = some c)
    (hmem : (upvotesOf s cid).any (fun it => it.1 == u) = true) :
    upvoteCaption s cid u =
      (.ok false,
       { s with
         upvotes := setA s.upvotes cid (zrem (upvotesOf s cid) u)
         captions := zadd s.captions cid (zcard (zrem (upvotesOf s cid) u)) }) := by
  simp [upvoteCaption, hrec, zrangeAll, hmem]

theorem upvoteCaption_notMem {s : ContestState} {cid u : String} {c : CaptionHash}
    (hrec : lookupA s.captionRecords cid = some c)
    (hmem : (upvotesOf s cid).any (fun it => it.1 == u) = false) :
    upvoteCaption s cid u =
      (.ok true,
       { s with
         upvotes := setA s.upvotes cid (zadd (upvotesOf s cid) u 1)
         captions := zadd s.captions cid (zcard (zadd (upvotesOf s cid) u 1)) }) := by
  simp [upvoteCaption, hrec, zrangeAll, hmem]

/-- After any successful toggle, the score just written for the toggled
caption is the cardinality of its upvote set. -/
theorem upvote_ok_score_eq_card (s : ContestState) (cid u : String) :
    ∀ b : Bool, (upvoteCaption s cid u).1 = .ok b →
    zscore ((upvoteCaption s cid u).2).captions cid
      = some (zcard (upvotesOf ((upvoteCaption s cid u).2) cid)) := by
  intro b _
  cases hrec : lookupA s.captionRecords cid with
  | none => simp [upvoteCaption, hrec] at *
  | some c =>
    cases hmem : (upvotesOf s cid).any (fun it => it.1 == u) with
    | true =>
      rw [upvoteCaption_mem hrec hmem]
      simp [upvotesOf, lookupA_setA_self, zscore_zadd_self]
    | false =>
      rw [upvoteCaption_notMem hrec hmem]
      simp [upvotesOf, lookupA_setA_self, zscore_zadd_self]

/-! ## Purge characterization -/

/-- Folding key deletions over a list of sorted-set items. -/
def foldDel {α : Type} (l : List (String × α)) (items : ZSet) : List (String × α) :=
  items.foldl (fun acc it => delA acc it.1) l

theorem foldl_purgeItemStep_post : ∀ (items : ZSet) (s : ContestState),
    (items.foldl purgeItemStep s).post = s.post := by
  intro items
  induction items with
  | nil => intro s; rfl
  | cons it its ih => intro s; rw [List.foldl_cons, ih]; rfl

theorem foldl_purgeItemStep_captions : ∀ (items : ZSet) (s : ContestState),
    (items.foldl purgeItemStep s).captions = s.captions := by
  intro items
  induction items with
  | nil => intro s; rfl
  | cons it its ih => intro s; rw [List.foldl_cons, ih]; rfl

theorem foldl_purgeItemStep_records : ∀ (items : ZSet) (s : ContestState),
    (items.foldl purgeItemStep s).captionRecords = foldDel s.captionRecords items := by
  intro items
  induction items with
  | nil => intro s; rfl
  | cons it its ih => intro s; rw [List.foldl_cons, ih]; rfl

theorem foldl_purgeItemStep_upvotes : ∀ (items : ZSet) (s : ContestState),
    (items.foldl purgeItemStep s).upvotes = foldDel s.upvotes items := by
  intro items
  induction items with
  | nil => intro s; rfl
  | cons it its ih => intro s; rw [List.foldl_cons, ih]; rfl

theorem purgeCaptionsAndUpvotes_eq (s : ContestState) :
    purgeCaptionsAndUpvotes s =
      { post := s.post, captions := []
        captionRecords := foldDel s.captionRecords s.captions
        upvotes := foldDel s.upvotes s.captions } := by
  unfold purgeCaptionsAndUpvotes
  simp only [zrangeAll, ContestState.mk.injEq]
  exact ⟨foldl_purgeItemStep_post _ _, trivial,
    foldl_purgeItemStep_records _ _, foldl_purgeItemStep_upvotes _ _⟩

theorem purgePost_state (s : ContestState) :
    (purgePost s).2 = { s with post := none } := by
  unfold purgePost getPost
  cases hp : s.post with
  | none =>
    cases s with
    | mk p c r u => simp only at hp; subst hp; rfl
  | some p => rfl

theorem settlementPurge_eq (s : ContestState) :
    settlementPurge s =
      { post := none, captions := []
        captionRecords := foldDel s.captionRecords s.captions
        upvotes := foldDel s.upvotes s.captions } := by
  unfold settlementPurge
  rw [purgePost_state, purgeCaptionsAndUpvotes_eq]

theorem foldDel_nil {α : Type} (l : List (String × α)) : foldDel l [] = l := rfl

theorem foldDel_eq_nil {α : Type} : ∀ (items : ZSet) (l : List (String × α)),
    (∀ p ∈ l, p.1 ∈ items.map Prod.fst) → foldDel l items = [] := by
  intro items
  induction items with
  | nil =>
    intro l h
    cases l with
    | nil => rfl
    | cons p ps => exact absurd (h p (by simp)) (by simp)
  | cons it its ih =>
    intro l h
    show foldDel (delA l it.1) its = []
    apply ih
    intro p hp
    have hpl : p ∈ l := List.mem_of_mem_filter hp
    have hpne : p.1 ≠ it.1 := by
      have := List.of_mem_filter hp
      simpa using this
    have := h p hpl
    simp only [List.map_cons, List.mem_cons] at this
    rcases this with h1 | h1
    · exact absurd h1 hpne
    · simpa using h1

/-- Every caption hash key and upvote-set key is listed in the captions
sorted set; this holds in every state the services construct. -/
def recordsIndexed (s : ContestState) : Prop :=
  (∀ p ∈ s.captionRecords, p.1 ∈ s.captions.map Prod.fst) ∧
  (∀ p ∈ s.upvotes, p.1 ∈ s.captions.map Prod.fst)

instance (s : ContestState) : Decidable (recordsIndexed s) := by
  unfold recordsIndexed; exact inferInstance

/-! ## A filterMap scan is unchanged by dropping items it skips -/

theorem filterMap_eq_filterMap_filter {α β : Type} {p : α → Bool} :
    ∀ (l : List α) (f : α → Option β),
    (∀ a ∈ l, p a = false → f a = none) →
    l.filterMap f = (l.filter p).filterMap f := by
  intro l f
  induction l with
  | nil => intro _; rfl
  | cons x xs ih =>
    intro h
    have hxs : ∀ a ∈ xs, p a = false → f a = none :=
      fun a ha => h a (by simp [ha])
    cases hpx : p x with
    | false =>
      rw [List.filterMap_cons, h x (by simp) hpx, List.filter_cons, hpx]
      simp only [Bool.false_eq_true, if_false]
      exact ih hxs
    | true =>
      rw [List.filterMap_cons, List.filter_cons, hpx]
      simp only [if_true]
      rw [List.filterMap_cons]
      cases f x <;> simp [ih hxs]

/-! ## Concrete states used by witnesses and counterexamples -/

def examplePost : Post := { id := "p1", imageUrl := "img", jobId := some "j1" }

/-- A contest that exists but has no captions yet. -/
def freshContest : ContestState :=
  { post := some examplePost, captions := [], captionRecords := [], upvotes := [] }

def exampleCapA : Caption :=
  { id := none, username := "ua", topExtendedCaption := none
    bottomExtendedCaption := none, topCaption := some "hello"
    bottomCaption := none, topExtensionWhite := none
    bottomExtensionWhite := none, createdAt := 100 }

def exampleCapB : Caption :=
  { id := none, username := "ub", topExtendedCaption := none
    bottomExtendedCaption := none, topCaption := some "world"
    bottomCaption := none, topExtensionWhite := none
    bottomExtensionWhite := none, createdAt := 200 }

/-- A payload with every caption text field absent. -/
def emptyCaption : Caption :=
  { id := none, username := "u0", topExtendedCaption := none
    bottomExtendedCaption := none, topCaption := none
    bottomCaption := none, topExtensionWhite := none
    bottomExtensionWhite := none, createdAt := 0 }

/-- The contest after user ua submits caption a (at time 100) and then user
ub submits caption b (at time 200). -/
def contestAB : ContestState :=
  (createCaption (createCaption freshContest "a" exampleCapA).2 "b" exampleCapB).2

/-- The contest right after the single caption c1 by author ua was created. -/
def contestOne : ContestState :=
  (createCaption freshContest "c1" exampleCapA).2

/-- contestAB with a ranking-index member whose caption hash is missing. -/
def danglingContest : ContestState :=
  { contestAB with captions := zadd contestAB.captions "ghost" 0 }

/-! ## The claims -/

/-- Claim C1: for every initial state and every sequence of toggle
operations, after each successful upvoteCaption call the score stored for
the toggled entry in the captions sorted set equals the cardinality of the
upvote sorted set of that entry. -/
theorem toggle_score_eq_vote_count (s0 : ContestState)
    (ops : List (String × String)) (cid u : String) (b : Bool)
    (h : (upvoteCaption (ops.foldl toggleStep s0) cid u).1 = .ok b) :
    zscore ((upvoteCaption (ops.foldl toggleStep s0) cid u).2).captions cid
      = some (zcard (upvotesOf ((upvoteCaption (ops.foldl toggleStep s0) cid u).2) cid)) :=
  upvote_ok_score_eq_card _ cid u b h

/-- Witness for C1: ub upvotes caption a, then v upvotes it; after the
second successful toggle the stored score equals the voter-set size. -/
theorem toggle_score_eq_vote_count_witness :
    zscore ((upvoteCaption (List.foldl toggleStep contestAB [("a", "ub")]) "a" "v").2).captions "a"
      = some (zcard (upvotesOf
          ((upvoteCaption (List.foldl toggleStep contestAB [("a", "ub")]) "a" "v").2) "a")) :=
  toggle_score_eq_vote_count contestAB [("a", "ub")] "a" "v" true (by decide)

/-- Claim C6: the settlement purge is idempotent on every state, and on
every state whose caption hashes and upvote sets are all listed in the
ranking index (every state the services construct) a single purge leaves
the empty keyspace. -/
theorem settlement_purge_idempotent : ∀ s : ContestState,
    settlementPurge (settlementPurge s) = settlementPurge s ∧
    (recordsIndexed s → settlementPurge s = ContestState.empty) := by
  intro s
  constructor
  · rw [settlementPurge_eq (settlementPurge s), settlementPurge_eq s]
    rfl
  · intro h
    rw [settlementPurge_eq s]
    unfold ContestState.empty
    rw [foldDel_eq_nil s.captions s.captionRecords h.1,
      foldDel_eq_nil s.captions s.upvotes h.2]

/-- Witness for C6 at a populated two-caption contest. -/
theorem settlement_purge_idempotent_witness :
    settlementPurge (settlementPurge contestAB) = settlementPurge contestAB ∧
    settlementPurge contestAB = ContestState.empty :=
  ⟨(settlement_purge_idempotent contestAB).1,
   (settlement_purge_idempotent contestAB).2 (by decide)⟩

/-- Claim C7: createCaption fails with contestNotFound when the post record
is absent, leaving the state untouched, and in particular it fails so on
every state produced by the settlement purge. -/
theorem create_rejected_contest_missing (s : ContestState) (newId : String)
    (c : Caption) (h : s.post = none) :
    createCaption s newId c = (.error .contestNotFound, s) ∧
    ∀ s2 : ContestState,
      createCaption (settlementPurge s2) newId c
        = (.error .contestNotFound, settlementPurge s2) := by
  constructor
  · simp [createCaption, h]
  · intro s2
    have hp : (settlementPurge s2).post = none := by rw [settlementPurge_eq]
    simp [createCaption, hp]

/-- Witness for C7 at the fully purged keyspace. -/
theorem create_rejected_contest_missing_witness :
    createCaption ContestState.empty "c1" exampleCapA
      = (.error .contestNotFound, ContestState.empty) :=
  (create_rejected_contest_missing ContestState.empty "c1" exampleCapA (by decide)).1

/-- Claim C8: upvoteCaption fails exactly when the caption hash is absent,
the failure is entryNotFound, and a failing call leaves the state
untouched. -/
theorem upvote_rejected_entry_missing (s : ContestState) (cid u : String) :
    ((upvoteCaption s cid u).1 = .error .entryNotFound
      ↔ lookupA s.captionRecords cid = none) ∧
    (lookupA s.captionRecords cid = none →
      upvoteCaption s cid u = (.error .entryNotFound, s)) ∧
    (∀ e : Err, (upvoteCaption s cid u).1 = .error e → e = .entryNotFound) := by
  cases hrec : lookupA s.captionRecords cid with
  | none => refine ⟨?_, ?_, ?_⟩ <;> simp [upvoteCaption, hrec]
  | some c =>
    cases hmem : (upvotesOf s cid).any (fun it => it.1 == u) with
    | true => rw [upvoteCaption_mem hrec hmem]; simp
    | false => rw [upvoteCaption_notMem hrec hmem]; simp

/-- Witness for C8: upvoting a missing caption fails and changes nothing. -/
theorem upvote_rejected_entry_missing_witness :
    upvoteCaption freshContest "missing" "ua"
      = (.error .entryNotFound, freshContest) :=
  (upvote_rejected_entry_missing freshContest "missing" "ua").2.1 (by decide)

/-- Claim C9: on an existing contest, createCaption returns the caption
carrying the fresh server-generated id, stores the hash under the fresh id,
registers the fresh id in the ranking index at score 0, and ignores any id
supplied by the client in the payload. -/
theorem create_fresh_id_zero_score (s : ContestState) (newId : String)
    (c : Caption) (p : Post) (hp : s.post = some p) :
    (createCaption s newId c).1 = .ok { c with id := some newId } ∧
    lookupA ((createCaption s newId c).2).captionRecords newId
      = some (toRedisDataType { c with id := some newId }) ∧
    zscore ((createCaption s newId c).2).captions newId = some 0 ∧
    ∀ clientId : Option String,
      createCaption s newId { c with id := clientId } = createCaption s newId c := by
  refine ⟨?_, ?_, ?_, ?_⟩
  · rw [createCaption_some hp]
  · rw [createCaption_some hp]
    exact lookupA_setA_self _ _ _
  · rw [createCaption_some hp]
    exact zscore_zadd_self _ _ _
  · intro clientId
    simp [createCaption, hp]

/-- Witness for C9 at a fresh contest. -/
theorem create_fresh_id_zero_score_witness :
    zscore ((createCaption freshContest "c1" exampleCapA).2).captions "c1" = some 0 :=
  (create_fresh_id_zero_score freshContest "c1" exampleCapA examplePost (by decide)).2.2.1

/-- Claim C10: a ranking-index member whose caption hash is missing
contributes nothing to either read, and dropping it from the scanned items
changes neither result: the remaining entries are still returned and the
reads are total functions that never fail. -/
theorem dangling_member_skipped (s : ContestState) (u d : String)
    (hd : lookupA s.captionRecords d = none) :
    getCaptionsWithUpvotes s u
      = ((zrangeAll s.captions).filter (fun it => it.1 != d)).filterMap
          (readCaptionItem s u) ∧
    getTopCaptions s
      = ((getTopCaptionItems s).filter (fun it => it.1 != d)).filterMap
          (readTopCaptionItem s) := by
  constructor
  · apply filterMap_eq_filterMap_filter
    intro a _ hpa
    have had : a.1 = d := by simpa using hpa
    simp [readCaptionItem, had, hd]
  · apply filterMap_eq_filterMap_filter
    intro a _ hpa
    have had : a.1 = d := by simpa using hpa
    simp [readTopCaptionItem, had, hd]

/-- Witness for C10 at a contest with a dangling ghost index member. -/
theorem dangling_member_skipped_witness :
    getCaptionsWithUpvotes danglingContest "ua"
      = ((zrangeAll danglingContest.captions).filter (fun it => it.1 != "ghost")).filterMap
          (readCaptionItem danglingContest "ua") :=
  (dangling_member_skipped danglingContest "ua" "ghost" (by decide)).1

/-- Claim C2 counterexample: captions a and b are tied at score 0, caption a
was created first (createdAt 100 versus 200) and was inserted into the
ranking index first, yet getTopCaptions returns caption b first, because the
slice of the sorted set is ordered by ascending member string on ties and
the code then reverses it.  Ties are therefore resolved by descending
caption id, not by earliest creation or earliest insertion. -/
theorem top_captions_tiebreak_counterexample :
    contestAB.captions = [("a", 0), ("b", 0)] ∧
    getTopCaptions contestAB
      = [fromRedisDataType (toRedisDataType { exampleCapB with id := some "b" }),
         fromRedisDataType (toRedisDataType { exampleCapA with id := some "a" })] ∧
    getTopCaptions contestAB
      ≠ [fromRedisDataType (toRedisDataType { exampleCapA with id := some "a" }),
         fromRedisDataType (toRedisDataType { exampleCapB with id := some "b" })] := by
  refine ⟨by decide, by decide, by decide⟩

/-- Claim C2 as amended: on a canonically ordered index, getTopCaptions
returns at most three entries; the scanned slice is strictly descending in
the index order, so scores are non-increasing and ties come in descending
caption-id order (not earliest creation); the result is exactly the decoded
slice; and when the contest has at most three entries the whole index is
scanned, so every entry with a stored hash is returned. -/
theorem top_captions_ordering (s : ContestState)
    (hs : s.captions.Pairwise zlt) :
    (getTopCaptions s).length ≤ 3 ∧
    (getTopCaptionItems s).Pairwise (fun a b => zlt b a) ∧
    getTopCaptions s = (getTopCaptionItems s).filterMap (readTopCaptionItem s) ∧
    (zcard s.captions ≤ 3 →
      getTopCaptionItems s = (zrangeAll s.captions).reverse) := by
  refine ⟨?_, ?_, rfl, ?_⟩
  · have h1 : (getTopCaptions s).length ≤ (getTopCaptionItems s).length :=
      List.length_filterMap_le _ _
    have h2 : (getTopCaptionItems s).length
        = s.captions.length - (zcard s.captions - 3) := by
      simp [getTopCaptionItems, zrangeAll]
    unfold zcard at h2
    omega
  · unfold getTopCaptionItems
    rw [List.pairwise_reverse]
    exact (hs.sublist (List.drop_sublist _ _))
  · intro hle
    unfold getTopCaptionItems zrangeAll
    rw [Nat.sub_eq_zero_of_le hle, List.drop_zero]

/-- Witness for C2 as amended, at the two-caption contest. -/
theorem top_captions_ordering_witness :
    (getTopCaptions contestAB).length ≤ 3 :=
  (top_captions_ordering contestAB (by decide)).1

/-- Claim C3: immediately after a successful createCaption the upvote set
of the new entry holds exactly the author, the entry shows up in
getCaptionsWithUpvotes for the author with upvotes 1 and userUpvoted true,
while its score in the ranking index is 0; hence the score differs from the
voter-set cardinality at creation. -/
theorem create_seeds_author_vote (s : ContestState) (newId : String)
    (c cc : Caption) (s' : ContestState)
    (hfresh : upvotesOf s newId = [])
    (h : createCaption s newId c = (.ok cc, s')) :
    upvotesOf s' newId = [(c.username, 1)] ∧
    ({ toCaption := fromRedisDataType (toRedisDataType { c with id := some newId })
       upvotes := 1, userUpvoted := true } : CaptionWithUpvotes)
      ∈ getCaptionsWithUpvotes s' c.username ∧
    zscore s'.captions newId = some 0 ∧
    zscore s'.captions newId ≠ some (zcard (upvotesOf s' newId)) := by
  cases hp : s.post with
  | none => simp [createCaption, hp] at h
  | some p =>
    rw [createCaption_some hp] at h
    injection h with h1 h2
    subst h2
    have hup : upvotesOf
        { s with
          captionRecords :=
            setA s.captionRecords newId (toRedisDataType { c with id := some newId })
          captions := zadd s.captions newId 0
          upvotes := setA s.upvotes newId (zadd (upvotesOf s newId) c.username 1) }
        newId = [(c.username, 1)] := by
      show (lookupA (setA s.upvotes newId _) newId).getD [] = _
      rw [lookupA_setA_self, hfresh]
      rfl
    refine ⟨hup, ?_, zscore_zadd_self _ _ _, ?_⟩
    · apply List.mem_filterMap.mpr
      refine ⟨(newId, 0), mem_zadd_self _ _ _, ?_⟩
      show readCaptionItem _ _ _ = _
      unfold readCaptionItem
      rw [show lookupA (setA s.captionRecords newId
            (toRedisDataType { c with id := some newId })) newId
          = some (toRedisDataType { c with id := some newId })
        from lookupA_setA_self _ _ _]
      rw [show (upvotesOf _ newId) = [(c.username, 1)] from hup]
      simp [zrangeAll]
    · rw [zscore_zadd_self, hup]
      simp [zcard]

/-- Witness for C3 at a fresh contest. -/
theorem create_seeds_author_vote_witness :
    upvotesOf (createCaption freshContest "c1" exampleCapA).2 "c1" = [("ua", 1)] :=
  (create_seeds_author_vote freshContest "c1" exampleCapA
      { exampleCapA with id := some "c1" }
      (createCaption freshContest "c1" exampleCapA).2
      (by decide) (by decide)).1

/-- Claim C4 counterexample: a payload with every caption field empty is
accepted by createCaption on an existing contest and the payload is
persisted; no ValidationError is produced. -/
theorem create_accepts_empty_payload :
    emptyCaption.topCaption = none ∧ emptyCaption.bottomCaption = none ∧
    emptyCaption.topExtendedCaption = none ∧
    emptyCaption.bottomExtendedCaption = none ∧
    (createCaption freshContest "c1" emptyCaption).1
      = .ok { emptyCaption with id := some "c1" } ∧
    lookupA ((createCaption freshContest "c1" emptyCaption).2).captionRecords "c1"
      = some (toRedisDataType { emptyCaption with id := some "c1" }) := by
  refine ⟨rfl, rfl, rfl, rfl, by decide, by decide⟩

/-- Claim C4 as amended: the server never rejects a caption payload with
validationError; on an existing contest createCaption accepts and persists
any payload, however empty; the only all-fields-empty check is the
client-side guard, which evaluates to false on the empty form and then
skips the create request entirely. -/
theorem caption_validation_client_side_only (s : ContestState) (newId : String)
    (c : Caption) (p : Post) (hp : s.post = some p) :
    (∀ (s2 : ContestState) (newId2 : String) (c2 : Caption),
      (createCaption s2 newId2 c2).1 ≠ .error .validationError) ∧
    (createCaption s newId c).1 = .ok { c with id := some newId } ∧
    clientHasContent "" "" "" "" = false := by
  refine ⟨?_, ?_, rfl⟩
  · intro s2 newId2 c2
    cases hp2 : s2.post with
    | none => simp [createCaption, hp2]
    | some q => simp [createCaption, hp2]
  · rw [createCaption_some hp]

/-- Witness for C4 as amended: the all-empty payload is accepted. -/
theorem caption_validation_client_side_only_witness :
    (createCaption freshContest "c9" emptyCaption).1
      = .ok { emptyCaption with id := some "c9" } :=
  (caption_validation_client_side_only freshContest "c9" emptyCaption
    examplePost (by decide)).2.1

/-- Claim C5 counterexample: right after creation the stored score is 0
while the author is already in the voter set; the author toggles twice,
both calls succeed with opposite booleans and the voter set is restored,
but the stored score ends at 1, not at its original value 0.  The double
toggle therefore does not return the ranking score to its value before the
first toggle. -/
theorem double_toggle_score_counterexample :
    (upvoteCaption contestOne "c1" "ua").1 = .ok false ∧
    (upvoteCaption ((upvoteCaption contestOne "c1" "ua").2) "c1" "ua").1 = .ok true ∧
    zscore contestOne.captions "c1" = some 0 ∧
    zscore ((upvoteCaption ((upvoteCaption contestOne "c1" "ua").2) "c1" "ua").2).captions "c1"
      = some 1 := by
  refine ⟨by decide, by decide, by decide, by decide⟩

/-- Claim C5 as amended: two successive successful toggles by the same
voter return opposite booleans and restore the upvote sorted set of the
entry exactly; the final ranking score is the cardinality of the original
voter set, so it equals the score before the first toggle whenever that
score already matched the voter-set cardinality (but not in general, as
the counterexample shows). -/
theorem double_toggle_restores_votes (s : ContestState) (cid u : String)
    (b1 b2 : Bool) (s1 s2 : ContestState)
    (hsort : (upvotesOf s cid).Pairwise zlt)
    (hone : ∀ p ∈ upvotesOf s cid, p.2 = 1)
    (h1 : upvoteCaption s cid u = (.ok b1, s1))
    (h2 : upvoteCaption s1 cid u = (.ok b2, s2)) :
    b2 = !b1 ∧
    upvotesOf s2 cid = upvotesOf s cid ∧
    zscore s2.captions cid = some (zcard (upvotesOf s cid)) ∧
    (zscore s.captions cid = some (zcard (upvotesOf s cid)) →
      zscore s2.captions cid = zscore s.captions cid) := by
  cases hrec : lookupA s.captionRecords cid with
  | none => simp [upvoteCaption, hrec] at h1
  | some c =>
    cases hmem : (upvotesOf s cid).any (fun it => it.1 == u) with
    | true =>
      rw [upvoteCaption_mem hrec hmem] at h1
      injection h1 with h1a h1b
      injection h1a with hb1
      have hup1 : upvotesOf s1 cid = zrem (upvotesOf s cid) u := by
        have hsu : s1.upvotes = setA s.upvotes cid (zrem (upvotesOf s cid) u) := by
          rw [← h1b]
        unfold upvotesOf
        rw [hsu, lookupA_setA_self, Option.getD_some]
        rfl
      have hrec1 : lookupA s1.captionRecords cid = some c := by
        rw [← h1b]; exact hrec
      have hmem1 : (upvotesOf s1 cid).any (fun it => it.1 == u) = false := by
        rw [hup1]
        apply List.any_eq_false.mpr
        intro p hp
        simpa using mem_zrem_ne p hp
      rw [upvoteCaption_notMem hrec1 hmem1] at h2
      injection h2 with h2a h2b
      injection h2a with hb2
      have hmemu : (u, 1) ∈ upvotesOf s cid := by
        obtain ⟨p, hp, hpu⟩ := List.any_eq_true.mp hmem
        obtain ⟨p1, p2⟩ := p
        have he1 : p1 = u := by simpa using hpu
        have he2 : p2 = 1 := hone (p1, p2) hp
        rw [he1, he2] at hp
        exact hp
      have hrestore : zadd (upvotesOf s1 cid) u 1 = upvotesOf s cid := by
        rw [hup1]
        show zinsert u 1 (zrem (zrem (upvotesOf s cid) u) u) = _
        rw [zrem_eq_self (fun p hp => mem_zrem_ne p hp)]
        exact zinsert_zrem_restore hsort hone hmemu
      have hup2 : upvotesOf s2 cid = upvotesOf s cid := by
        have hsu : s2.upvotes = setA s1.upvotes cid (zadd (upvotesOf s1 cid) u 1) := by
          rw [← h2b]
        unfold upvotesOf
        rw [hsu, lookupA_setA_self, Option.getD_some]
        exact hrestore
      have hscore2 : zscore s2.captions cid = some (zcard (upvotesOf s cid)) := by
        have hsc : s2.captions
            = zadd s1.captions cid (zcard (zadd (upvotesOf s1 cid) u 1)) := by
          rw [← h2b]
        rw [hsc, zscore_zadd_self, hrestore]
      refine ⟨by rw [← hb2, ← hb1]; rfl, hup2, hscore2, fun he => by rw [hscore2, he]⟩
    | false =>
      rw [upvoteCaption_notMem hrec hmem] at h1
      injection h1 with h1a h1b
      injection h1a with hb1
      have hnot : ∀ p ∈ upvotesOf s cid, p.1 ≠ u := by
        intro p hp
        have := List.any_eq_false.mp hmem p hp
        simpa using this
      have hup1 : upvotesOf s1 cid = zinsert u 1 (upvotesOf s cid) := by
        have hsu : s1.upvotes = setA s.upvotes cid (zadd (upvotesOf s cid) u 1) := by
          rw [← h1b]
        unfold upvotesOf
        rw [hsu, lookupA_setA_self, Option.getD_some]
        show zinsert u 1 (zrem (upvotesOf s cid) u) = _
        rw [zrem_eq_self hnot]
        rfl
      have hrec1 : lookupA s1.captionRecords cid = some c := by
        rw [← h1b]; exact hrec
      have hmem1 : (upvotesOf s1 cid).any (fun it => it.1 == u) = true := by
        rw [hup1]
        apply List.any_eq_true.mpr
        exact ⟨(u, 1), mem_zinsert_self _ _ _, by simp⟩
      rw [upvoteCaption_mem hrec1 hmem1] at h2
      injection h2 with h2a h2b
      injection h2a with hb2
      have hrem2 : zrem (upvotesOf s1 cid) u = upvotesOf s cid := by
        rw [hup1, zrem_zinsert_self, zrem_eq_self hnot]
      have hup2 : upvotesOf s2 cid = upvotesOf s cid := by
        have hsu : s2.upvotes = setA s1.upvotes cid (zrem (upvotesOf s1 cid) u) := by
          rw [← h2b]
        unfold upvotesOf
        rw [hsu, lookupA_setA_self, Option.getD_some]
        exact hrem2
      have hscore2 : zscore s2.captions cid = some (zcard (upvotesOf s cid)) := by
        have hsc : s2.captions
            = zadd s1.captions cid (zcard (zrem (upvotesOf s1 cid) u)) := by
          rw [← h2b]
        rw [hsc, zscore_zadd_self, hrem2]
      refine ⟨by rw [← hb2, ← hb1]; rfl, hup2, hscore2, fun he => by rw [hscore2, he]⟩

/-- Witness for C5 as amended: ub toggles caption a twice; the voter set
returns to its original value. -/
theorem double_toggle_restores_votes_witness :
    upvotesOf (upvoteCaption (upvoteCaption contestAB "a" "ub").2 "a" "ub").2 "a"
      = upvotesOf contestAB "a" :=
  (double_toggle_restores_votes contestAB "a" "ub" true false
    (upvoteCaption contestAB "a" "ub").2
    (upvoteCaption (upvoteCaption contestAB "a" "ub").2 "a" "ub").2
    (by decide) (by decide) (by decide) (by decide)).2.1

end SnapCapit
